import Mathlib

/-!
Verification of the LLILC GcInfo generator (include/GcInfo/GcInfo.h).

The repository ships the interface header; the method bodies live outside
the checked sources, so stateful operations (`GcFuncInfo` recording, the
module registry, the slot encoder) are modelled from the specification
where noted, while the inline code of the header (the `AllocaInfo` flag
predicates, `isGcType`, `hasRecord`, `hasSlot`) is embedded directly.

Machine integers: `Flags` is a C `enum` bit set held in an `int`; all flag
constants are small nonnegative values and the program only combines them
with `|` and tests them with `&`, so the embedding uses `Nat` with `|||`
and `&&&`. Frame offsets are `int32_t`; the program only stores and
compares them, so they are embedded as `Int`.
-/

namespace GcInfoSpec

/-! ## AllocaFlags (GcInfo.h lines 39-48) -/

def NoneFlag : Nat := 0x0
def GcPointerFlag : Nat := 0x1
def GcAggregateFlag : Nat := 0x2
def GcValueFlag : Nat := GcPointerFlag ||| GcAggregateFlag
def PinnedFlag : Nat := 0x4
def GsCookieFlag : Nat := 0x8
def SecurityObjectFlag : Nat := 0x10
def GenericsContextFlag : Nat := 0x20

/-! ## AllocaInfo (GcInfo.h lines 71-81), with its inline flag predicates -/

structure AllocaInfo where
  Offset : Int
  Flags : Nat
deriving DecidableEq, Repr

def AllocaInfo.isGcPointer (a : AllocaInfo) : Bool :=
  (a.Flags &&& GcPointerFlag) != 0

def AllocaInfo.isGcAggregate (a : AllocaInfo) : Bool :=
  (a.Flags &&& GcAggregateFlag) != 0

def AllocaInfo.isGcValue (a : AllocaInfo) : Bool :=
  (a.Flags &&& GcValueFlag) != 0

def AllocaInfo.isPinned (a : AllocaInfo) : Bool :=
  (a.Flags &&& PinnedFlag) != 0

/-! ## Stack allocations -/

/-- Modelled from the spec: the type classification of a stack allocation
(spec section 4.1). A GC aggregate carries the ordered byte offsets of its
managed-pointer fields, the data `GcInfo::getGcPointers` computes from the
struct layout (its body is not under src). -/
inductive AllocaTy where
  | gcPtr
  | gcAggregate (gcPtrOffsets : List Nat)
  | nonGc
deriving DecidableEq, Repr

/-- A stack allocation: its identity (the `AllocaInst` the C++ maps are keyed
by), its fixed frame offset and its type classification. -/
structure Alloca where
  ident : Nat
  offset : Int
  ty : AllocaTy
deriving DecidableEq, Repr

def AllocaTy.isGcType : AllocaTy → Bool
  | .gcPtr => true
  | .gcAggregate _ => true
  | .nonGc => false

/-- Flags `GcFuncInfo::recordAlloca` derives from the allocation's type
(GcInfo.h lines 120-122: record with appropriate flags based on type). -/
def AllocaTy.typeFlags : AllocaTy → Nat
  | .gcPtr => GcPointerFlag
  | .gcAggregate _ => GcAggregateFlag
  | .nonGc => NoneFlag

/-- Modelled from the spec: `GcInfo::getGcPointers` (declared GcInfo.h lines
155-157, body not under src) produces the ordered byte offsets, within one
instance of an aggregate type, at which a managed pointer field begins. -/
def getGcPointers : AllocaTy → List Nat
  | .gcAggregate ms => ms
  | _ => []

/-- Programming-contract violations (spec section 7: fatal, abort the current
function's GC-info generation). -/
inductive ContractViolation where
  | duplicateOffset
  | notGcValue
  | gcValueAsSpecial
deriving DecidableEq, Repr

/-! ## GcFuncInfo (GcInfo.h lines 87-129) -/

structure GcFuncInfo where
  AllocaMap : List (Alloca × AllocaInfo) := []
  GsCkValidRangeStart : Nat := 0
  GsCkValidRangeEnd : Nat := 0
  GenericsContextParamType : Nat := 0
deriving DecidableEq, Repr

def emptyGcFuncInfo : GcFuncInfo := {}

/-- GcInfo.h lines 99-101 (inline in src): whether the allocation has a
record in AllocaMap. -/
def GcFuncInfo.hasRecord (g : GcFuncInfo) (a : Alloca) : Bool :=
  (g.AllocaMap.find? (fun p => p.1 == a)).isSome

/-- Whether some other, distinct allocation already holds this frame offset. -/
def GcFuncInfo.offsetClash (g : GcFuncInfo) (a : Alloca) : Bool :=
  g.AllocaMap.any (fun p => p.1 != a && p.2.Offset == a.offset)

/-- Modelled from the spec: the body of `GcFuncInfo::recordAlloca` (declared
GcInfo.h line 122) is not under src. Spec section 4.2: record a fresh
allocation with flags derived from its type; re-recording the same allocation
is benign (flags are augmented by the mark operations); recording an
allocation whose offset is already assigned to a different allocation is a
fatal contract violation. -/
def GcFuncInfo.recordAlloca (g : GcFuncInfo) (a : Alloca) :
    Except ContractViolation GcFuncInfo :=
  if g.hasRecord a then .ok g
  else if g.offsetClash a then .error .duplicateOffset
  else .ok { g with AllocaMap := g.AllocaMap ++ [(a, ⟨a.offset, a.ty.typeFlags⟩)] }

/-- Bitwise-OR additional flags into the recorded entry of one allocation. -/
def GcFuncInfo.orFlags (g : GcFuncInfo) (a : Alloca) (flags : Nat) : GcFuncInfo :=
  { g with AllocaMap :=
      g.AllocaMap.map fun p =>
        if p.1 = a then (p.1, ⟨p.2.Offset, p.2.Flags ||| flags⟩) else p }

/-- Modelled from the spec: the body of `GcFuncInfo::markGcAlloca` (declared
GcInfo.h line 125: mark additional annotations on a recorded GC Value) is not
under src. Spec section 4.2: ensure the GC-typed allocation is recorded, then
augment its flags by bitwise OR; applying it to a non-GC-typed allocation is a
contract violation. -/
def GcFuncInfo.markGcAlloca (g : GcFuncInfo) (a : Alloca) (flags : Nat) :
    Except ContractViolation GcFuncInfo :=
  if a.ty.isGcType then (g.recordAlloca a).map (fun g1 => g1.orFlags a flags)
  else .error .notGcValue

/-- Modelled from the spec: the body of `GcFuncInfo::markNonGcAlloca`
(declared GcInfo.h line 128: mark additional annotations on a recorded
non-GC-Value) is not under src. Dual of `markGcAlloca`: applying it to a
GC-typed allocation is a contract violation. -/
def GcFuncInfo.markNonGcAlloca (g : GcFuncInfo) (a : Alloca) (flags : Nat) :
    Except ContractViolation GcFuncInfo :=
  if a.ty.isGcType then .error .gcValueAsSpecial
  else (g.recordAlloca a).map (fun g1 => g1.orFlags a flags)

/-- Modelled from the spec: body of `GcFuncInfo::recordGcAlloca` (GcInfo.h
line 91) is not under src. Records a stack-allocated GC value with flags
derived from its type (spec section 4.2). -/
def GcFuncInfo.recordGcAlloca (g : GcFuncInfo) (a : Alloca) :
    Except ContractViolation GcFuncInfo :=
  g.markGcAlloca a a.ty.typeFlags

/-- Modelled from the spec: body of `GcFuncInfo::recordPinned` (GcInfo.h
line 92) is not under src. Adds the `Pinned` annotation to a (possibly not
yet recorded) GC-typed allocation (spec section 4.2). -/
def GcFuncInfo.recordPinned (g : GcFuncInfo) (a : Alloca) :
    Except ContractViolation GcFuncInfo :=
  g.markGcAlloca a PinnedFlag

/-- Modelled from the spec: body of `GcFuncInfo::recordSecurityObject`
(GcInfo.h line 93) is not under src. -/
def GcFuncInfo.recordSecurityObject (g : GcFuncInfo) (a : Alloca) :
    Except ContractViolation GcFuncInfo :=
  g.markNonGcAlloca a SecurityObjectFlag

/-- Modelled from the spec: body of `GcFuncInfo::recordGsCookie` (GcInfo.h
lines 94-95) is not under src. Also stores the cookie's validity range. -/
def GcFuncInfo.recordGsCookie (g : GcFuncInfo) (a : Alloca) (rs re : Nat) :
    Except ContractViolation GcFuncInfo :=
  (g.markNonGcAlloca a GsCookieFlag).map fun g1 =>
    { g1 with GsCkValidRangeStart := rs, GsCkValidRangeEnd := re }

/-- Modelled from the spec: body of `GcFuncInfo::recordGenericsContext`
(GcInfo.h lines 96-97) is not under src. Also stores the context-parameter
kind. -/
def GcFuncInfo.recordGenericsContext (g : GcFuncInfo) (a : Alloca) (pt : Nat) :
    Except ContractViolation GcFuncInfo :=
  (g.markNonGcAlloca a GenericsContextFlag).map fun g1 =>
    { g1 with GenericsContextParamType := pt }

/-- Modelled from the spec: body of `GcFuncInfo::getEscapingLocations`
(GcInfo.h line 103) is not under src. Spec section 4.2: the ordered sequence
of all recorded GC-relevant allocations' value handles. -/
def GcFuncInfo.getEscapingLocations (g : GcFuncInfo) : List Alloca :=
  (g.AllocaMap.filter (fun p => p.2.isGcValue)).map Prod.fst

/-- The public record operations of `GcFuncInfo`, for reasoning about
arbitrary recording sequences. -/
inductive RecordOp where
  | gcAlloca (a : Alloca)
  | pinned (a : Alloca)
  | gsCookie (a : Alloca) (rs re : Nat)
  | securityObject (a : Alloca)
  | genericsContext (a : Alloca) (pt : Nat)
deriving DecidableEq, Repr

def applyRecordOp (g : GcFuncInfo) : RecordOp → Except ContractViolation GcFuncInfo
  | .gcAlloca a => g.recordGcAlloca a
  | .pinned a => g.recordPinned a
  | .gsCookie a rs re => g.recordGsCookie a rs re
  | .securityObject a => g.recordSecurityObject a
  | .genericsContext a pt => g.recordGenericsContext a pt

def runRecordOps (g : GcFuncInfo) : List RecordOp → Except ContractViolation GcFuncInfo
  | [] => .ok g
  | op :: ops => (applyRecordOp g op).bind (fun g1 => runRecordOps g1 ops)

/-! ## Module registry (GcInfo.h lines 134-163) -/

structure GcInfo where
  GcInfoMap : List (Nat × GcFuncInfo) := []
deriving DecidableEq, Repr

/-- Modelled from the spec: body of `GcInfo::getGcInfo` (GcInfo.h line 160)
is not under src. Spec section 4.3: lookup, returning the record or none. -/
def GcInfo.getGcInfo (m : GcInfo) (f : Nat) : Option GcFuncInfo :=
  (m.GcInfoMap.find? (fun p => p.1 == f)).map Prod.snd

/-- Modelled from the spec: body of `GcInfo::newGcInfo` (GcInfo.h line 159)
is not under src. Spec section 4.3 get-or-create: return the existing record
or create, insert and return a new empty one. -/
def GcInfo.newGcInfo (m : GcInfo) (f : Nat) : GcFuncInfo × GcInfo :=
  match m.getGcInfo f with
  | some r => (r, m)
  | none => (emptyGcFuncInfo, ⟨m.GcInfoMap ++ [(f, emptyGcFuncInfo)]⟩)

/-- The registry operations (get-or-create and lookup; there is no removal). -/
inductive RegistryOp where
  | create (f : Nat)
  | query (f : Nat)
deriving DecidableEq, Repr

def applyRegistryOp (m : GcInfo) : RegistryOp → GcInfo
  | .create f => (m.newGcInfo f).2
  | .query _ => m

def runRegistryOps (m : GcInfo) (ops : List RegistryOp) : GcInfo :=
  ops.foldl applyRegistryOp m

def createdFns (ops : List RegistryOp) : List Nat :=
  ops.filterMap (fun op => match op with | .create f => some f | .query _ => none)

/-- Number of registry entries keyed by one function identity. -/
def GcInfo.countKey (m : GcInfo) (f : Nat) : Nat :=
  (m.GcInfoMap.filter (fun p => p.1 == f)).length

/-! ## Slot encoder / emitter (GcInfo.h lines 167-237) -/

/-- One untracked-slot declaration handed to the external encoder. -/
structure UntrackedEntry where
  offset : Int
  isPinned : Bool
  isObjectRef : Bool
deriving DecidableEq, Repr

/-- The emitter's slot-assignment state: the offset-to-identifier `SlotMap`,
`FirstTrackedSlot` and `NumTrackedSlots` (fields of `GcInfoEmitter`, GcInfo.h
lines 222-224), the external encoder's next sequential slot identifier, and
the trace of what was assigned and declared, for stating properties. -/
structure EmitterState where
  SlotMap : List (Int × Nat) := []
  NextSlotId : Nat := 0
  FirstTrackedSlot : Nat := 0
  NumTrackedSlots : Nat := 0
  trackedIds : List Nat := []
  untrackedIds : List Nat := []
  trackedOffsets : List Int := []
  untrackedEntries : List UntrackedEntry := []
deriving DecidableEq, Repr

def initEmitter : EmitterState := {}

/-- Modelled from the spec: body of `GcInfoEmitter::getSlot` (GcInfo.h line
198) is not under src. The external encoder assigns slot identifiers
sequentially; the assignment is recorded in `SlotMap`. -/
def EmitterState.getSlot (s : EmitterState) (off : Int) : Nat × EmitterState :=
  (s.NextSlotId,
   { s with SlotMap := s.SlotMap ++ [(off, s.NextSlotId)],
            NextSlotId := s.NextSlotId + 1 })

/-- Modelled from the spec: body of `GcInfoEmitter::getTrackedSlot` (GcInfo.h
line 199) is not under src. Assigns a slot identifier and accounts for it in
`FirstTrackedSlot` and `NumTrackedSlots`. -/
def EmitterState.getTrackedSlot (s : EmitterState) (off : Int) : EmitterState :=
  let r := s.getSlot off
  { r.2 with
    FirstTrackedSlot := if s.NumTrackedSlots = 0 then r.1 else s.FirstTrackedSlot,
    NumTrackedSlots := s.NumTrackedSlots + 1,
    trackedIds := s.trackedIds ++ [r.1],
    trackedOffsets := s.trackedOffsets ++ [off] }

/-- Modelled from the spec: body of `GcInfoEmitter::getUntrackedSlot`
(GcInfo.h lines 200-201) is not under src. Assigns a slot identifier and
declares an untracked slot with the pinned / object-reference flags. -/
def EmitterState.getUntrackedSlot (s : EmitterState) (off : Int)
    (isPinned isObjectRef : Bool) : EmitterState :=
  let r := s.getSlot off
  { r.2 with untrackedIds := s.untrackedIds ++ [r.1],
             untrackedEntries := s.untrackedEntries ++ [⟨off, isPinned, isObjectRef⟩] }

/-- Modelled from the spec: body of `GcInfoEmitter::isTrackedSlot` (GcInfo.h
line 197) is not under src. The header comment (GcInfo.h lines 213-217) and
the spec describe it as the single range check over `FirstTrackedSlot` and
`NumTrackedSlots`. -/
def EmitterState.isTrackedSlot (s : EmitterState) (slotId : Nat) : Bool :=
  decide (s.FirstTrackedSlot ≤ slotId ∧
          slotId < s.FirstTrackedSlot + s.NumTrackedSlots)

/-- A slot-assignment call, for reasoning about arbitrary interleavings of
`getTrackedSlot` and `getUntrackedSlot`. -/
inductive SlotCall where
  | tracked (off : Int)
  | untracked (off : Int) (isPinned isObjectRef : Bool)
deriving DecidableEq, Repr

def SlotCall.isTracked : SlotCall → Bool
  | .tracked _ => true
  | .untracked _ _ _ => false

def applySlotCall (s : EmitterState) : SlotCall → EmitterState
  | .tracked off => s.getTrackedSlot off
  | .untracked off p o => s.getUntrackedSlot off p o

def runSlotCalls (s : EmitterState) (calls : List SlotCall) : EmitterState :=
  calls.foldl applySlotCall s

/-- Modelled from the spec: body of `GcInfoEmitter::encodeGcAggregate`
(GcInfo.h lines 188-189) is not under src. Spec section 4.4 step 5: for each
member pointer offset `getGcPointers` reports, declare one untracked slot at
base offset plus member offset, flagged pinned / object-reference as
inherited from the aggregate's own flags. -/
def EmitterState.encodeGcAggregate (s : EmitterState) (a : Alloca)
    (info : AllocaInfo) : EmitterState :=
  (getGcPointers a.ty).foldl
    (fun s (m : Nat) =>
      s.getUntrackedSlot (info.Offset + (m : Int)) info.isPinned info.isGcValue) s

/-- Modelled from the spec: spec section 4.4 step 3, tracked-eligible = plain
GC pointers not pinned. -/
def trackedEligible (info : AllocaInfo) : Bool :=
  info.isGcPointer && !info.isPinned

/-- Modelled from the spec: body of `GcInfoEmitter::encodeTrackedPointers`
(GcInfo.h line 186) is not under src. Walks the recorded slots and assigns a
tracked slot to every tracked-eligible one. -/
def encodeTrackedPointers (s : EmitterState) (g : GcFuncInfo) : EmitterState :=
  g.AllocaMap.foldl
    (fun s p => if trackedEligible p.2 then s.getTrackedSlot p.2.Offset else s) s

/-- Modelled from the spec: body of `GcInfoEmitter::encodeUntrackedPointers`
(GcInfo.h line 187) is not under src. Walks the recorded slots; aggregates
are expanded via `encodeGcAggregate`; every other non-tracked-eligible slot
(pinned pointers and special-symbol slots) is declared untracked. -/
def encodeUntrackedPointers (s : EmitterState) (g : GcFuncInfo) : EmitterState :=
  g.AllocaMap.foldl
    (fun s p =>
      if trackedEligible p.2 then s
      else if p.2.isGcAggregate then s.encodeGcAggregate p.1 p.2
      else s.getUntrackedSlot p.2.Offset p.2.isPinned p.2.isGcPointer) s

/-- The slot-assignment portion of the emitter pipeline: tracked slots first,
then untracked slots (spec section 4.4 steps 3-5). -/
def emitSlots (g : GcFuncInfo) : EmitterState :=
  encodeUntrackedPointers (encodeTrackedPointers initEmitter g) g

/-- A compiled function as the emitter sees it: its safepoint count (from the
external stack map) and its per-function record. -/
structure GcFunction where
  safepointCount : Nat
  funcInfo : GcFuncInfo
deriving DecidableEq, Repr

/-- Modelled from the spec: body of `GcInfo::isGcFunction` (GcInfo.h line
152) is not under src. Spec section 4.1: true if the function has at least
one GC-relevant or special recorded slot or a safepoint. -/
def isGcFunction (f : GcFunction) : Bool :=
  !f.funcInfo.AllocaMap.isEmpty || f.safepointCount != 0

/-- Modelled from the spec: body of `GcInfoEmitter::needsGCInfo` (GcInfo.h
line 193) is not under src. Spec section 4.4 step 1: the precondition check
is `isGcFunction`. -/
def needsGCInfo (f : GcFunction) : Bool := isGcFunction f

/-- Modelled from the spec: body of `GcInfoEmitter::emitGCInfo` (GcInfo.h
line 184) is not under src. If the function needs no GC info, no encoder
call is made and no output is produced (`none`); otherwise the slot
assignment runs and its state is the produced output. -/
def emitGCInfo (f : GcFunction) : Option EmitterState :=
  if needsGCInfo f then some (emitSlots f.funcInfo) else none

/-- The whole per-function pipeline: collection (a run of record operations)
followed by emission; a contract violation aborts the function's GC-info
generation, so no output at all is produced. -/
def emitFromRecords (safepoints : Nat)
    (r : Except ContractViolation GcFuncInfo) : Option EmitterState :=
  match r with
  | .error _ => none
  | .ok g => emitGCInfo ⟨safepoints, g⟩

/-- The flag bits of the three non-GC special-symbol kinds. -/
def specialMask : Nat := GsCookieFlag ||| SecurityObjectFlag ||| GenericsContextFlag

/-- The untracked entries one recorded slot contributes during
`encodeUntrackedPointers` (none when tracked-eligible, the expansion for an
aggregate, a single entry otherwise). -/
def untrackedEntriesOf (p : Alloca × AllocaInfo) : List UntrackedEntry :=
  if trackedEligible p.2 then []
  else if p.2.isGcAggregate then
    (getGcPointers p.1.ty).map
      (fun (m : Nat) => ⟨p.2.Offset + (m : Int), p.2.isPinned, p.2.isGcValue⟩)
  else [⟨p.2.Offset, p.2.isPinned, p.2.isGcPointer⟩]

/-- Well-formedness of one AllocaMap entry: its offset is the allocation's
offset and its flags are either the type-derived GC flag possibly combined
with Pinned, or a nonempty combination of special-symbol flags. -/
def WfEntry (p : Alloca × AllocaInfo) : Prop :=
  p.2.Offset = p.1.offset ∧
  ((p.1.ty.isGcType = true ∧
      (p.2.Flags = p.1.ty.typeFlags ∨ p.2.Flags = p.1.ty.typeFlags ||| PinnedFlag)) ∨
   (p.1.ty.isGcType = false ∧ p.2.Flags ≠ 0 ∧ p.2.Flags ||| specialMask = specialMask))

/-! ## Bitwise helper lemmas -/

lemma nat_and_or_distrib_left (f a b : Nat) :
    f &&& (a ||| b) = (f &&& a) ||| (f &&& b) := by
  refine Nat.eq_of_testBit_eq fun k => ?_
  simp [Nat.testBit_land, Nat.testBit_lor, Bool.and_or_distrib_left]

lemma nat_or_eq_zero_iff (m n : Nat) : m ||| n = 0 ↔ m = 0 ∧ n = 0 := by
  constructor
  · intro h
    have ht : ∀ i, m.testBit i = false ∧ n.testBit i = false := by
      intro i
      have hc := congrArg (fun x => Nat.testBit x i) h
      simpa [Nat.testBit_lor, Bool.or_eq_false_iff] using hc
    exact ⟨Nat.zero_of_testBit_eq_false fun i => (ht i).1,
           Nat.zero_of_testBit_eq_false fun i => (ht i).2⟩
  · rintro ⟨rfl, rfl⟩
    rfl

lemma nat_or_bne_zero (m n : Nat) :
    ((m ||| n) != 0) = ((m != 0) || (n != 0)) := by
  rw [Bool.eq_iff_iff]
  simp only [bne_iff_ne, ne_eq, nat_or_eq_zero_iff, not_and_or, Bool.or_eq_true]

/-- C10: for every `AllocaInfo` record, `isGcValue` returns true exactly when
`isGcPointer` or `isGcAggregate` does (the combined `GcValue` mask `0x3` is the
disjunction of the two single-bit tests), and a record whose flags are any
combination of only `Pinned`, `GsCookie`, `SecurityObject` and
`GenericsContext` is not classified as a GC value. -/
theorem allocaInfo_isGcValue_iff_ptr_or_aggregate :
    (∀ a : AllocaInfo, a.isGcValue = (a.isGcPointer || a.isGcAggregate)) ∧
    (∀ (off : Int) (b1 b2 b3 b4 : Bool),
      AllocaInfo.isGcValue
        ⟨off, (cond b1 PinnedFlag 0) ||| (cond b2 GsCookieFlag 0) |||
              (cond b3 SecurityObjectFlag 0) ||| (cond b4 GenericsContextFlag 0)⟩
        = false) := by
  constructor
  · intro a
    have hsplit : a.Flags &&& GcValueFlag =
        (a.Flags &&& GcPointerFlag) ||| (a.Flags &&& GcAggregateFlag) := by
      have := nat_and_or_distrib_left a.Flags GcPointerFlag GcAggregateFlag
      simpa [GcValueFlag] using this
    simp only [AllocaInfo.isGcValue, AllocaInfo.isGcPointer, AllocaInfo.isGcAggregate,
      hsplit]
    exact nat_or_bne_zero _ _
  · intro off b1 b2 b3 b4
    cases b1 <;> cases b2 <;> cases b3 <;> cases b4 <;>
      simp only [AllocaInfo.isGcValue] <;> decide

/-! ## List and map helper lemmas -/

lemma hasRecord_false_iff (g : GcFuncInfo) (a : Alloca) :
    g.hasRecord a = false ↔ ∀ p ∈ g.AllocaMap, p.1 ≠ a := by
  unfold GcFuncInfo.hasRecord
  rw [← Bool.not_eq_true, List.find?_isSome]
  constructor
  · intro h p hp hpa
    exact h ⟨p, hp, by simp [hpa]⟩
  · rintro h ⟨p, hp, hpa⟩
    exact h p hp (by simpa using hpa)

lemma map_update_of_not_mem {α : Type} [DecidableEq α] {β : Type}
    (l : List (α × β)) (a : α) (f : α × β → α × β)
    (h : ∀ p ∈ l, p.1 ≠ a) :
    (l.map fun p => if p.1 = a then f p else p) = l := by
  induction l with
  | nil => rfl
  | cons x xs ih =>
    rw [List.map_cons, if_neg (h x (List.mem_cons_self x xs)),
      ih fun p hp => h p (List.mem_cons_of_mem x hp)]

/-! ## Emitter run lemmas -/

lemma fold_getUntrackedSlot_entries (ms : List Nat) (s : EmitterState)
    (base : Int) (pin obj : Bool) :
    (ms.foldl (fun s m => s.getUntrackedSlot (base + (m : Int)) pin obj) s).untrackedEntries
      = s.untrackedEntries ++ ms.map (fun m => ⟨base + (m : Int), pin, obj⟩) := by
  induction ms generalizing s with
  | nil => simp
  | cons m ms ih =>
    rw [List.foldl_cons, ih]
    simp [EmitterState.getUntrackedSlot, EmitterState.getSlot]

/-! ## Registry lemmas -/

lemma getGcInfo_none_countKey (m : GcInfo) (f : Nat)
    (h : m.getGcInfo f = none) : m.countKey f = 0 := by
  unfold GcInfo.getGcInfo at h
  rw [Option.map_eq_none', List.find?_eq_none] at h
  simp only [GcInfo.countKey, List.length_eq_zero, List.filter_eq_nil_iff]
  intro p hp
  exact h p hp

lemma getGcInfo_some_countKey (m : GcInfo) (f : Nat) (r : GcFuncInfo)
    (h : m.getGcInfo f = some r) : 1 ≤ m.countKey f := by
  unfold GcInfo.getGcInfo at h
  rw [Option.map_eq_some'] at h
  obtain ⟨p, hp, -⟩ := h
  have hmem : p ∈ m.GcInfoMap := List.mem_of_find?_eq_some hp
  have hpred := List.find?_some hp
  have hmf : p ∈ m.GcInfoMap.filter (fun q => q.1 == f) :=
    List.mem_filter.mpr ⟨hmem, hpred⟩
  have := List.length_pos_of_mem hmf
  simpa [GcInfo.countKey] using this

lemma countKey_newGcInfo (m : GcInfo) (f f2 : Nat) :
    ((m.newGcInfo f).2).countKey f2 =
      if f2 = f then max (m.countKey f2) 1 else m.countKey f2 := by
  cases hm : m.getGcInfo f with
  | some r =>
    have hnew : m.newGcInfo f = (r, m) := by
      simp [GcInfo.newGcInfo, hm]
    rw [hnew]
    by_cases hf : f2 = f
    · subst hf
      have h1 := getGcInfo_some_countKey m f2 r hm
      simp [Nat.max_eq_left h1]
    · simp [hf]
  | none =>
    have hnew : m.newGcInfo f =
        (emptyGcFuncInfo, ⟨m.GcInfoMap ++ [(f, emptyGcFuncInfo)]⟩) := by
      simp [GcInfo.newGcInfo, hm]
    rw [hnew]
    by_cases hf : f2 = f
    · subst hf
      have h0 : m.GcInfoMap.filter (fun q => q.1 == f2) = [] := by
        have := getGcInfo_none_countKey m f2 hm
        simpa [GcInfo.countKey, List.length_eq_zero] using this
      simp [GcInfo.countKey, List.filter_append, h0]
    · have hne : ((f == f2) = false) := by
        rw [beq_eq_false_iff_ne]
        exact fun h => hf h.symm
      simp [GcInfo.countKey, List.filter_append, List.filter_cons, hne, hf]

lemma countKey_runRegistryOps (ops : List RegistryOp) (m : GcInfo) (f : Nat) :
    (runRegistryOps m ops).countKey f =
      if f ∈ createdFns ops then max (m.countKey f) 1 else m.countKey f := by
  induction ops generalizing m with
  | nil => simp [runRegistryOps, createdFns]
  | cons op ops ih =>
    have hrun : runRegistryOps m (op :: ops) = runRegistryOps (applyRegistryOp m op) ops := by
      simp [runRegistryOps, List.foldl_cons]
    rw [hrun, ih]
    cases op with
    | query f2 =>
      simp [applyRegistryOp, createdFns]
    | create f2 =>
      have hcreated : createdFns (RegistryOp.create f2 :: ops) = f2 :: createdFns ops := by
        simp [createdFns]
      rw [hcreated]
      have happ : (applyRegistryOp m (RegistryOp.create f2)).countKey f =
          if f = f2 then max (m.countKey f) 1 else m.countKey f :=
        countKey_newGcInfo m f2 f
      by_cases h2 : f = f2
      · subst h2
        by_cases h1 : f ∈ createdFns ops <;>
          simp only [happ, if_pos rfl, h1, if_true, if_false, List.mem_cons,
            true_or, or_true, eq_self_iff_true, if_pos] <;> omega
      · by_cases h1 : f ∈ createdFns ops <;>
          simp [happ, h1, h2, List.mem_cons]

/-! ## Record-operation helper lemmas -/

lemma recordAlloca_fresh (g : GcFuncInfo) (a : Alloca)
    (hfresh : g.hasRecord a = false) (hoff : g.offsetClash a = false) :
    g.recordAlloca a =
      .ok { g with AllocaMap := g.AllocaMap ++ [(a, ⟨a.offset, a.ty.typeFlags⟩)] } := by
  simp [GcFuncInfo.recordAlloca, hfresh, hoff]

lemma recordAlloca_recorded (g : GcFuncInfo) (a : Alloca)
    (h : g.hasRecord a = true) : g.recordAlloca a = .ok g := by
  simp [GcFuncInfo.recordAlloca, h]

lemma orFlags_append (g : GcFuncInfo) (a : Alloca) (flags : Nat) (e : AllocaInfo)
    (h : ∀ p ∈ g.AllocaMap, p.1 ≠ a) :
    GcFuncInfo.orFlags { g with AllocaMap := g.AllocaMap ++ [(a, e)] } a flags =
      { g with AllocaMap := g.AllocaMap ++ [(a, ⟨e.Offset, e.Flags ||| flags⟩)] } := by
  simp only [GcFuncInfo.orFlags, List.map_append]
  rw [map_update_of_not_mem g.AllocaMap a _ h]
  simp

lemma hasRecord_of_mem (g : GcFuncInfo) (a : Alloca) (e : AllocaInfo)
    (h : (a, e) ∈ g.AllocaMap) : g.hasRecord a = true := by
  unfold GcFuncInfo.hasRecord
  rw [List.find?_isSome]
  exact ⟨(a, e), h, by simp⟩

lemma filter_key_length_one (l : List (Alloca × AllocaInfo)) (a : Alloca)
    (e : AllocaInfo) (h : ∀ p ∈ l, p.1 ≠ a) :
    ((l ++ [(a, e)]).filter (fun p => p.1 == a)).length = 1 := by
  rw [List.filter_append]
  have h0 : l.filter (fun p => p.1 == a) = [] :=
    List.filter_eq_nil_iff.mpr fun p hp => by simpa using h p hp
  simp [h0]

/-- C4: recording the same stack allocation more than once (here: once as a
GC pointer via recordGcAlloca, once as pinned via recordPinned) leaves
exactly one AllocaMap entry for it, whose flags are the bitwise OR of all
flags supplied across the calls, with no duplicate entry. -/
theorem rerecord_merges_flags (g : GcFuncInfo) (a : Alloca)
    (hfresh : g.hasRecord a = false) (hoff : g.offsetClash a = false)
    (hty : a.ty = .gcPtr) :
    (g.recordGcAlloca a).bind (fun g1 => g1.recordPinned a) =
      .ok { g with AllocaMap :=
              g.AllocaMap ++ [(a, ⟨a.offset, GcPointerFlag ||| PinnedFlag⟩)] } ∧
    ∀ g2, (g.recordGcAlloca a).bind (fun g1 => g1.recordPinned a) = .ok g2 →
      (g2.AllocaMap.filter (fun p => p.1 == a)).length = 1 := by
  have hnm : ∀ p ∈ g.AllocaMap, p.1 ≠ a := (hasRecord_false_iff g a).mp hfresh
  have hgc : a.ty.isGcType = true := by rw [hty]; rfl
  have htf : a.ty.typeFlags = GcPointerFlag := by rw [hty]; rfl
  have step1 : g.recordGcAlloca a =
      .ok { g with AllocaMap := g.AllocaMap ++ [(a, ⟨a.offset, GcPointerFlag⟩)] } := by
    rw [GcFuncInfo.recordGcAlloca, GcFuncInfo.markGcAlloca, if_pos hgc,
      recordAlloca_fresh g a hfresh hoff]
    simp only [Except.map]
    rw [orFlags_append g a _ _ hnm]
    have hself : GcPointerFlag ||| GcPointerFlag = GcPointerFlag := by decide
    simp [htf, hself]
  have hmem : (a, (⟨a.offset, GcPointerFlag⟩ : AllocaInfo)) ∈
      g.AllocaMap ++ [(a, (⟨a.offset, GcPointerFlag⟩ : AllocaInfo))] :=
    List.mem_append_right _ (List.mem_singleton.mpr rfl)
  have step2 : GcFuncInfo.recordPinned
      { g with AllocaMap := g.AllocaMap ++ [(a, ⟨a.offset, GcPointerFlag⟩)] } a =
      .ok { g with AllocaMap :=
              g.AllocaMap ++ [(a, ⟨a.offset, GcPointerFlag ||| PinnedFlag⟩)] } := by
    rw [GcFuncInfo.recordPinned, GcFuncInfo.markGcAlloca, if_pos hgc,
      recordAlloca_recorded _ a (hasRecord_of_mem _ a _ hmem)]
    simp only [Except.map]
    rw [orFlags_append g a _ _ hnm]
  have hpipe : (g.recordGcAlloca a).bind (fun g1 => g1.recordPinned a) =
      .ok { g with AllocaMap :=
              g.AllocaMap ++ [(a, ⟨a.offset, GcPointerFlag ||| PinnedFlag⟩)] } := by
    rw [step1]
    simpa [Except.bind] using step2
  refine ⟨hpipe, fun g2 h2 => ?_⟩
  rw [hpipe] at h2
  cases h2
  exact filter_key_length_one g.AllocaMap a _ hnm

/-- C5: recording two different stack allocations with the same frame offset
raises a fatal contract violation, and no encoding output at all is produced
for the function afterwards. -/
theorem duplicate_offset_fatal_no_output (g : GcFuncInfo) (a b : Alloca) (sp : Nat)
    (hfa : g.hasRecord a = false) (hoa : g.offsetClash a = false)
    (hfb : g.hasRecord b = false) (hne : b ≠ a) (hoff : b.offset = a.offset)
    (hta : a.ty = .gcPtr) (htb : b.ty = .gcPtr) :
    runRecordOps g [.gcAlloca a, .gcAlloca b] = .error .duplicateOffset ∧
    emitFromRecords sp (runRecordOps g [.gcAlloca a, .gcAlloca b]) = none := by
  have hnm : ∀ p ∈ g.AllocaMap, p.1 ≠ a := (hasRecord_false_iff g a).mp hfa
  have hgca : a.ty.isGcType = true := by rw [hta]; rfl
  have hgcb : b.ty.isGcType = true := by rw [htb]; rfl
  have htfa : a.ty.typeFlags = GcPointerFlag := by rw [hta]; rfl
  have step1 : g.recordGcAlloca a =
      .ok { g with AllocaMap := g.AllocaMap ++ [(a, ⟨a.offset, GcPointerFlag⟩)] } := by
    rw [GcFuncInfo.recordGcAlloca, GcFuncInfo.markGcAlloca, if_pos hgca,
      recordAlloca_fresh g a hfa hoa]
    simp only [Except.map]
    rw [orFlags_append g a _ _ hnm]
    have hself : GcPointerFlag ||| GcPointerFlag = GcPointerFlag := by decide
    simp [htfa, hself]
  set g1 : GcFuncInfo :=
    { g with AllocaMap := g.AllocaMap ++ [(a, ⟨a.offset, GcPointerFlag⟩)] } with hg1
  have hrb : g1.hasRecord b = false := by
    rw [hasRecord_false_iff]
    intro p hp
    rcases List.mem_append.mp hp with hpg | hpa
    · exact (hasRecord_false_iff g b).mp hfb p hpg
    · rw [List.mem_singleton.mp hpa]
      exact Ne.symm hne
  have hclash : g1.offsetClash b = true := by
    unfold GcFuncInfo.offsetClash
    rw [List.any_eq_true]
    refine ⟨(a, ⟨a.offset, GcPointerFlag⟩),
      List.mem_append_right _ (List.mem_singleton.mpr rfl), ?_⟩
    simp [bne_iff_ne, Ne.symm hne, hoff]
  have step2 : g1.recordGcAlloca b = .error .duplicateOffset := by
    rw [GcFuncInfo.recordGcAlloca, GcFuncInfo.markGcAlloca, if_pos hgcb,
      GcFuncInfo.recordAlloca, hrb]
    simp [hclash, Except.map]
  have hrun : runRecordOps g [.gcAlloca a, .gcAlloca b] = .error .duplicateOffset := by
    simp [runRecordOps, applyRecordOp, step1, step2, Except.bind]
  exact ⟨hrun, by rw [hrun]; rfl⟩

/-- C6: for a function with no GC-relevant allocation and no special slot
(empty AllocaMap) and no safepoint, isGcFunction is false, the emitter skips
it and produces no output. -/
theorem non_gc_function_no_output (f : GcFunction)
    (h1 : f.funcInfo.AllocaMap = []) (h2 : f.safepointCount = 0) :
    isGcFunction f = false ∧ emitGCInfo f = none := by
  have hgc : isGcFunction f = false := by
    simp [isGcFunction, h1, h2, List.isEmpty]
  exact ⟨hgc, by simp [emitGCInfo, needsGCInfo, hgc]⟩

/-- C2: encoding a GC aggregate emits exactly as many untracked entries as
getGcPointers reports pointer-field offsets for the aggregate's type, each at
frame offset baseOffset plus memberOffset, and each carrying the pinned and
object-reference flags inherited from the aggregate's own AllocaInfo flags. -/
theorem encodeGcAggregate_entries (s : EmitterState) (a : Alloca)
    (info : AllocaInfo) :
    (s.encodeGcAggregate a info).untrackedEntries
      = s.untrackedEntries ++ (getGcPointers a.ty).map
          (fun m => ⟨info.Offset + (m : Int), info.isPinned, info.isGcValue⟩) ∧
    (s.encodeGcAggregate a info).untrackedEntries.length
      = s.untrackedEntries.length + (getGcPointers a.ty).length := by
  have h := fold_getUntrackedSlot_entries (getGcPointers a.ty) s
    info.Offset info.isPinned info.isGcValue
  refine ⟨?_, ?_⟩
  · rw [EmitterState.encodeGcAggregate, h]
  · rw [EmitterState.encodeGcAggregate, h]
    simp

/-- C9: for a GcFuncInfo whose recorded allocations are all GC-relevant
(zero special slots), getEscapingLocations returns exactly one entry per
recorded allocation, in recording order. -/
theorem escaping_locations_complete (g : GcFuncInfo)
    (h : ∀ p ∈ g.AllocaMap, p.2.isGcValue = true) :
    g.getEscapingLocations = g.AllocaMap.map Prod.fst ∧
    g.getEscapingLocations.length = g.AllocaMap.length := by
  have hf : g.AllocaMap.filter (fun p => p.2.isGcValue) = g.AllocaMap :=
    List.filter_eq_self.mpr fun p hp => by simpa using h p hp
  constructor
  · rw [GcFuncInfo.getEscapingLocations, hf]
  · rw [GcFuncInfo.getEscapingLocations, hf]
    simp

/-- C8: the module registry's get-or-create returns the existing record when
one exists, otherwise creates, inserts and returns a new empty record; lookup
finds the inserted record; and after any sequence of registry operations the
registry holds exactly one record per function ever created (none is ever
removed). -/
theorem registry_get_or_create_spec :
    (∀ (m : GcInfo) (f : Nat) (r : GcFuncInfo),
      m.getGcInfo f = some r → m.newGcInfo f = (r, m)) ∧
    (∀ (m : GcInfo) (f : Nat),
      m.getGcInfo f = none →
        m.newGcInfo f = (emptyGcFuncInfo, ⟨m.GcInfoMap ++ [(f, emptyGcFuncInfo)]⟩) ∧
        (GcInfo.mk (m.GcInfoMap ++ [(f, emptyGcFuncInfo)])).getGcInfo f =
          some emptyGcFuncInfo) ∧
    (∀ (ops : List RegistryOp) (f : Nat),
      (runRegistryOps ⟨[]⟩ ops).countKey f =
        if f ∈ createdFns ops then 1 else 0) := by
  refine ⟨fun m f r hm => ?_, fun m f hm => ⟨?_, ?_⟩, fun ops f => ?_⟩
  · simp [GcInfo.newGcInfo, hm]
  · simp [GcInfo.newGcInfo, hm]
  · have hnone : ∀ p ∈ m.GcInfoMap, ¬((p.1 == f) = true) := by
      unfold GcInfo.getGcInfo at hm
      rw [Option.map_eq_none', List.find?_eq_none] at hm
      exact hm
    unfold GcInfo.getGcInfo
    rw [List.find?_append]
    have h1 : m.GcInfoMap.find? (fun p => p.1 == f) = none :=
      List.find?_eq_none.mpr hnone
    simp [h1]
  · have h := countKey_runRegistryOps ops ⟨[]⟩ f
    have h0 : (GcInfo.mk []).countKey f = 0 := by
      simp [GcInfo.countKey]
    rw [h, h0]
    by_cases hf : f ∈ createdFns ops <;> simp [hf]

/-! ## Emitter walk lemmas -/

lemma getTrackedSlot_fields (s : EmitterState) (off : Int) :
    (s.getTrackedSlot off).trackedOffsets = s.trackedOffsets ++ [off] ∧
    (s.getTrackedSlot off).untrackedEntries = s.untrackedEntries := by
  constructor <;> rfl

lemma getUntrackedSlot_fields (s : EmitterState) (off : Int) (pin obj : Bool) :
    (s.getUntrackedSlot off pin obj).trackedOffsets = s.trackedOffsets ∧
    (s.getUntrackedSlot off pin obj).untrackedEntries =
      s.untrackedEntries ++ [⟨off, pin, obj⟩] := by
  constructor <;> rfl

lemma fold_getUntrackedSlot_trackedOffsets (ms : List Nat) (s : EmitterState)
    (base : Int) (pin obj : Bool) :
    (ms.foldl (fun s m => s.getUntrackedSlot (base + (m : Int)) pin obj) s).trackedOffsets
      = s.trackedOffsets := by
  induction ms generalizing s with
  | nil => rfl
  | cons m ms ih =>
    rw [List.foldl_cons, ih]
    rfl

lemma encodeTrackedPointers_fold (l : List (Alloca × AllocaInfo)) (s : EmitterState) :
    ((l.foldl (fun s p =>
        if trackedEligible p.2 then s.getTrackedSlot p.2.Offset else s) s).trackedOffsets
      = s.trackedOffsets ++
          ((l.filter fun p => trackedEligible p.2).map fun p => p.2.Offset)) ∧
    (l.foldl (fun s p =>
        if trackedEligible p.2 then s.getTrackedSlot p.2.Offset else s) s).untrackedEntries
      = s.untrackedEntries := by
  induction l generalizing s with
  | nil => simp
  | cons p l ih =>
    rw [List.foldl_cons]
    by_cases h : trackedEligible p.2
    · rw [if_pos h]
      refine ⟨?_, ?_⟩
      · rw [(ih _).1, (getTrackedSlot_fields s p.2.Offset).1]
        simp [List.filter_cons, h]
      · rw [(ih _).2, (getTrackedSlot_fields s p.2.Offset).2]
    · rw [if_neg h]
      refine ⟨?_, ?_⟩
      · rw [(ih _).1]
        simp [List.filter_cons, h]
      · exact (ih _).2

lemma encodeUntrackedPointers_fold (l : List (Alloca × AllocaInfo)) (s : EmitterState) :
    ((l.foldl (fun s p =>
        if trackedEligible p.2 then s
        else if p.2.isGcAggregate then s.encodeGcAggregate p.1 p.2
        else s.getUntrackedSlot p.2.Offset p.2.isPinned p.2.isGcPointer) s).untrackedEntries
      = s.untrackedEntries ++ (l.map untrackedEntriesOf).flatten) ∧
    (l.foldl (fun s p =>
        if trackedEligible p.2 then s
        else if p.2.isGcAggregate then s.encodeGcAggregate p.1 p.2
        else s.getUntrackedSlot p.2.Offset p.2.isPinned p.2.isGcPointer) s).trackedOffsets
      = s.trackedOffsets := by
  induction l generalizing s with
  | nil => simp
  | cons p l ih =>
    rw [List.foldl_cons, List.map_cons, List.flatten_cons]
    by_cases h1 : trackedEligible p.2
    · rw [if_pos h1]
      have hof : untrackedEntriesOf p = [] := by rw [untrackedEntriesOf, if_pos h1]
      rw [hof]
      exact ⟨by rw [(ih _).1]; simp, (ih _).2⟩
    · rw [if_neg h1]
      by_cases h2 : p.2.isGcAggregate
      · rw [if_pos h2]
        have hof : untrackedEntriesOf p = (getGcPointers p.1.ty).map
            (fun (m : Nat) => ⟨p.2.Offset + (m : Int), p.2.isPinned, p.2.isGcValue⟩) := by
          rw [untrackedEntriesOf, if_neg h1, if_pos h2]
        have hagg := fold_getUntrackedSlot_entries (getGcPointers p.1.ty) s
          p.2.Offset p.2.isPinned p.2.isGcValue
        have haggt := fold_getUntrackedSlot_trackedOffsets (getGcPointers p.1.ty) s
          p.2.Offset p.2.isPinned p.2.isGcValue
        refine ⟨?_, ?_⟩
        · rw [(ih _).1, EmitterState.encodeGcAggregate, hagg, hof, List.append_assoc]
        · rw [(ih _).2, EmitterState.encodeGcAggregate, haggt]
      · rw [if_neg h2]
        have hof : untrackedEntriesOf p = [⟨p.2.Offset, p.2.isPinned, p.2.isGcPointer⟩] := by
          rw [untrackedEntriesOf, if_neg h1, if_neg h2]
        refine ⟨?_, ?_⟩
        · rw [(ih _).1, (getUntrackedSlot_fields s p.2.Offset p.2.isPinned p.2.isGcPointer).2,
            hof, List.append_assoc]
        · rw [(ih _).2, (getUntrackedSlot_fields s p.2.Offset p.2.isPinned p.2.isGcPointer).1]

lemma emitSlots_untrackedEntries (g : GcFuncInfo) :
    (emitSlots g).untrackedEntries = (g.AllocaMap.map untrackedEntriesOf).flatten := by
  have h1 := (encodeTrackedPointers_fold g.AllocaMap initEmitter).2
  have h2 := (encodeUntrackedPointers_fold g.AllocaMap
    (encodeTrackedPointers initEmitter g)).1
  rw [emitSlots, encodeUntrackedPointers, h2, encodeTrackedPointers, h1]
  rfl

lemma emitSlots_trackedOffsets (g : GcFuncInfo) :
    (emitSlots g).trackedOffsets =
      ((g.AllocaMap.filter fun p => trackedEligible p.2).map fun p => p.2.Offset) := by
  have h1 := (encodeTrackedPointers_fold g.AllocaMap initEmitter).1
  have h2 := (encodeUntrackedPointers_fold g.AllocaMap
    (encodeTrackedPointers initEmitter g)).2
  rw [emitSlots, encodeUntrackedPointers, h2, encodeTrackedPointers, h1]
  rfl

/-- C3: a recorded (non-aggregate) slot whose flags include Pinned is emitted
as an untracked slot flagged pinned, and its offset is never given a tracked
slot, even when the slot is also a plain GC pointer. -/
theorem pinned_slot_emitted_untracked (g : GcFuncInfo) (a : Alloca)
    (info : AllocaInfo)
    (hmem : (a, info) ∈ g.AllocaMap)
    (hpin : info.isPinned = true)
    (hagg : info.isGcAggregate = false)
    (hdist : g.AllocaMap.Pairwise (fun p q => p.2.Offset ≠ q.2.Offset)) :
    (⟨info.Offset, true, info.isGcPointer⟩ : UntrackedEntry) ∈
      (emitSlots g).untrackedEntries ∧
    info.Offset ∉ (emitSlots g).trackedOffsets := by
  have hne : trackedEligible info = false := by
    simp [trackedEligible, hpin]
  constructor
  · rw [emitSlots_untrackedEntries]
    rw [List.mem_flatten]
    refine ⟨untrackedEntriesOf (a, info), List.mem_map_of_mem untrackedEntriesOf hmem, ?_⟩
    simp [untrackedEntriesOf, hne, hagg, hpin]
  · rw [emitSlots_trackedOffsets]
    intro hmemT
    obtain ⟨q, hq, hqoff⟩ := List.mem_map.mp hmemT
    obtain ⟨hqmem, hqel⟩ := List.mem_filter.mp hq
    have hqne : q ≠ (a, info) := by
      intro he
      rw [he] at hqel
      rw [hne] at hqel
      exact Bool.false_ne_true hqel
    have hsym : Symmetric (fun (p q : Alloca × AllocaInfo) => p.2.Offset ≠ q.2.Offset) :=
      fun p q h => h.symm
    exact List.Pairwise.forall hsym hdist hqmem hmem hqne hqoff

/-! ## Slot-assignment run lemmas -/

lemma run_tracked_block (ts : List SlotCall) (s : EmitterState)
    (hts : ∀ c ∈ ts, c.isTracked = true) :
    (runSlotCalls s ts).NextSlotId = s.NextSlotId + ts.length ∧
    (runSlotCalls s ts).trackedIds = s.trackedIds ++ List.range' s.NextSlotId ts.length ∧
    (runSlotCalls s ts).untrackedIds = s.untrackedIds ∧
    (runSlotCalls s ts).NumTrackedSlots = s.NumTrackedSlots + ts.length ∧
    (runSlotCalls s ts).FirstTrackedSlot =
      (if s.NumTrackedSlots = 0 ∧ ts ≠ [] then s.NextSlotId else s.FirstTrackedSlot) := by
  induction ts generalizing s with
  | nil =>
    simp [runSlotCalls]
  | cons c ts ih =>
    cases c with
    | untracked off pin obj =>
      have := hts (.untracked off pin obj) (List.mem_cons_self _ _)
      simp [SlotCall.isTracked] at this
    | tracked off =>
      have hrun : runSlotCalls s (SlotCall.tracked off :: ts) =
          runSlotCalls (s.getTrackedSlot off) ts := by
        simp [runSlotCalls, applySlotCall]
      have hts2 : ∀ c ∈ ts, c.isTracked = true :=
        fun c hc => hts c (List.mem_cons_of_mem _ hc)
      obtain ⟨ih1, ih2, ih3, ih4, ih5⟩ := ih (s.getTrackedSlot off) hts2
      have hnext : (s.getTrackedSlot off).NextSlotId = s.NextSlotId + 1 := rfl
      have htrk : (s.getTrackedSlot off).trackedIds = s.trackedIds ++ [s.NextSlotId] := rfl
      have huntrk : (s.getTrackedSlot off).untrackedIds = s.untrackedIds := rfl
      have hnum : (s.getTrackedSlot off).NumTrackedSlots = s.NumTrackedSlots + 1 := rfl
      have hfst : (s.getTrackedSlot off).FirstTrackedSlot =
          (if s.NumTrackedSlots = 0 then s.NextSlotId else s.FirstTrackedSlot) := rfl
      rw [hrun]
      refine ⟨?_, ?_, ?_, ?_, ?_⟩
      · rw [ih1, hnext, List.length_cons]
        omega
      · rw [ih2, htrk, hnext, List.length_cons, List.range'_succ, List.append_assoc]
        rfl
      · rw [ih3, huntrk]
      · rw [ih4, hnum, List.length_cons]
        omega
      · rw [ih5, hnext, hnum, hfst]
        by_cases h0 : s.NumTrackedSlots = 0 <;> simp [h0]

lemma run_untracked_block (us : List SlotCall) (s : EmitterState)
    (hus : ∀ c ∈ us, c.isTracked = false) :
    (runSlotCalls s us).NextSlotId = s.NextSlotId + us.length ∧
    (runSlotCalls s us).untrackedIds = s.untrackedIds ++ List.range' s.NextSlotId us.length ∧
    (runSlotCalls s us).trackedIds = s.trackedIds ∧
    (runSlotCalls s us).NumTrackedSlots = s.NumTrackedSlots ∧
    (runSlotCalls s us).FirstTrackedSlot = s.FirstTrackedSlot := by
  induction us generalizing s with
  | nil =>
    simp [runSlotCalls]
  | cons c us ih =>
    cases c with
    | tracked off =>
      have := hus (.tracked off) (List.mem_cons_self _ _)
      simp [SlotCall.isTracked] at this
    | untracked off pin obj =>
      have hrun : runSlotCalls s (SlotCall.untracked off pin obj :: us) =
          runSlotCalls (s.getUntrackedSlot off pin obj) us := by
        simp [runSlotCalls, applySlotCall]
      have hus2 : ∀ c ∈ us, c.isTracked = false :=
        fun c hc => hus c (List.mem_cons_of_mem _ hc)
      obtain ⟨ih1, ih2, ih3, ih4, ih5⟩ := ih (s.getUntrackedSlot off pin obj) hus2
      have hnext : (s.getUntrackedSlot off pin obj).NextSlotId = s.NextSlotId + 1 := rfl
      have huid : (s.getUntrackedSlot off pin obj).untrackedIds =
          s.untrackedIds ++ [s.NextSlotId] := rfl
      rw [hrun]
      refine ⟨?_, ?_, ?_, ?_, ?_⟩
      · rw [ih1, hnext, List.length_cons]
        omega
      · rw [ih2, huid, hnext, List.length_cons, List.range'_succ, List.append_assoc]
        rfl
      · exact ih3
      · exact ih4
      · exact ih5

/-- C1 counterexample: for the interleaved slot-assignment run
getTrackedSlot, getUntrackedSlot, getTrackedSlot, the identifier assigned by
the getUntrackedSlot call satisfies the isTrackedSlot range check, so it is
not true that for every interleaving isTrackedSlot is false on every
untracked-assigned identifier. -/
theorem isTrackedSlot_interleaved_counterexample :
    ¬ (∀ calls : List SlotCall,
        ∀ id ∈ (runSlotCalls initEmitter calls).untrackedIds,
          (runSlotCalls initEmitter calls).isTrackedSlot id = false) := by
  intro h
  have h1 := h [.tracked 0, .untracked 8 false false, .tracked 16] 1 (by decide)
  revert h1
  decide

/-- C1 (amended): after every slot-assignment run in which the getTrackedSlot
calls form one consecutive block and the getUntrackedSlot calls form one
consecutive block (either block first, as the emitter's walk produces), the
tracked identifiers form one contiguous range, the untracked identifiers form
one contiguous range, and for every identifier isTrackedSlot agrees with
membership in the tracked-assigned identifiers. -/
theorem slot_assignment_grouped_contiguous (ts us calls : List SlotCall)
    (hts : ∀ c ∈ ts, c.isTracked = true)
    (hus : ∀ c ∈ us, c.isTracked = false)
    (hcalls : calls = ts ++ us ∨ calls = us ++ ts) :
    ∃ t0 u0,
      (runSlotCalls initEmitter calls).trackedIds = List.range' t0 ts.length ∧
      (runSlotCalls initEmitter calls).untrackedIds = List.range' u0 us.length ∧
      ∀ id : Nat,
        ((runSlotCalls initEmitter calls).isTrackedSlot id = true ↔
          id ∈ (runSlotCalls initEmitter calls).trackedIds) := by
  have hinit_next : initEmitter.NextSlotId = 0 := rfl
  have hinit_num : initEmitter.NumTrackedSlots = 0 := rfl
  rcases hcalls with rfl | rfl
  · -- tracked block first
    have hsplit : runSlotCalls initEmitter (ts ++ us) =
        runSlotCalls (runSlotCalls initEmitter ts) us := by
      simp [runSlotCalls, List.foldl_append]
    obtain ⟨t1, t2, t3, t4, t5⟩ := run_tracked_block ts initEmitter hts
    obtain ⟨u1, u2, u3, u4, u5⟩ := run_untracked_block us (runSlotCalls initEmitter ts) hus
    refine ⟨0, ts.length, ?_, ?_, ?_⟩
    · rw [hsplit, u3, t2]
      simp [initEmitter]
    · rw [hsplit, u2, t3, t1]
      simp [initEmitter]
    · intro id
      rw [hsplit, EmitterState.isTrackedSlot, u3, u5, u4, t2, t4, t5]
      have hfst : (if initEmitter.NumTrackedSlots = 0 ∧ ts ≠ [] then
          initEmitter.NextSlotId else initEmitter.FirstTrackedSlot) = 0 := by
        by_cases hn : ts = [] <;> simp [hn, initEmitter]
      rw [hfst]
      simp only [hinit_num, Nat.zero_add, hinit_next,
        show initEmitter.trackedIds = [] from rfl, List.nil_append]
      rw [List.mem_range'_1, decide_eq_true_eq]
      omega
  · -- untracked block first
    have hsplit : runSlotCalls initEmitter (us ++ ts) =
        runSlotCalls (runSlotCalls initEmitter us) ts := by
      simp [runSlotCalls, List.foldl_append]
    obtain ⟨u1, u2, u3, u4, u5⟩ := run_untracked_block us initEmitter hus
    obtain ⟨t1, t2, t3, t4, t5⟩ := run_tracked_block ts (runSlotCalls initEmitter us) hts
    refine ⟨us.length, 0, ?_, ?_, ?_⟩
    · rw [hsplit, t2, u3, u1]
      simp [initEmitter]
    · rw [hsplit, t3, u2]
      simp [initEmitter]
    · intro id
      rw [hsplit, EmitterState.isTrackedSlot, t2, t4, t5, u3, u4, u5, u1]
      by_cases hn : ts = []
      · subst hn
        simp [initEmitter]
      · have hcond : ((initEmitter.NumTrackedSlots = 0 ∧ ts ≠ [])) := ⟨hinit_num, hn⟩
        rw [if_pos hcond]
        simp only [hinit_num, Nat.zero_add, hinit_next,
          show initEmitter.trackedIds = [] from rfl, List.nil_append]
        rw [List.mem_range'_1, decide_eq_true_eq]

/-! ## Flag-invariant lemmas -/

lemma lor_subset_mask (f c M : Nat) (hf : f ||| M = M) (hc : c ||| M = M) :
    (f ||| c) ||| M = M := by
  refine Nat.eq_of_testBit_eq fun k => ?_
  have hfk := congrArg (fun x => Nat.testBit x k) hf
  have hck := congrArg (fun x => Nat.testBit x k) hc
  simp only [Nat.testBit_lor] at hfk hck ⊢
  cases hb1 : f.testBit k <;> cases hb2 : c.testBit k <;>
    rw [hb1] at hfk <;> rw [hb2] at hck <;> simp_all

lemma and_eq_zero_of_subset (f M c : Nat) (hf : f ||| M = M) (hc : c &&& M = 0) :
    f &&& c = 0 := by
  refine Nat.zero_of_testBit_eq_false fun k => ?_
  have hfk := congrArg (fun x => Nat.testBit x k) hf
  have hck := congrArg (fun x => Nat.testBit x k) hc
  simp only [Nat.testBit_lor, Nat.testBit_land, Nat.zero_testBit] at hfk hck
  rw [Nat.testBit_land]
  cases hb1 : f.testBit k <;> cases hb2 : c.testBit k <;>
    rw [hb1] at hfk <;> rw [hb2] at hck <;> simp_all

lemma markGcAlloca_wf (g : GcFuncInfo) (a : Alloca) (flags : Nat) (g' : GcFuncInfo)
    (hinv : ∀ p ∈ g.AllocaMap, WfEntry p)
    (hfl : flags = PinnedFlag ∨ flags = a.ty.typeFlags)
    (h : g.markGcAlloca a flags = .ok g') :
    ∀ p ∈ g'.AllocaMap, WfEntry p := by
  unfold GcFuncInfo.markGcAlloca at h
  by_cases hty : a.ty.isGcType = true
  case neg =>
    rw [if_neg (by simpa using hty)] at h
    cases h
  rw [if_pos hty] at h
  unfold GcFuncInfo.recordAlloca at h
  by_cases hrec : g.hasRecord a = true
  · rw [if_pos hrec] at h
    simp only [Except.map, Except.ok.injEq] at h
    subst h
    intro p' hp'
    unfold GcFuncInfo.orFlags at hp'
    simp only at hp'
    obtain ⟨p, hp, hfp⟩ := List.mem_map.mp hp'
    have hw := hinv p hp
    by_cases hpa : p.1 = a
    · rw [if_pos hpa] at hfp
      subst hfp
      obtain ⟨hoff, hbr⟩ := hw
      refine ⟨hoff, ?_⟩
      rcases hbr with ⟨hgt, hflags⟩ | ⟨hgt, -⟩
      · left
        refine ⟨hgt, ?_⟩
        show p.2.Flags ||| flags = p.1.ty.typeFlags ∨
             p.2.Flags ||| flags = p.1.ty.typeFlags ||| PinnedFlag
        rw [hpa] at hgt hflags ⊢
        have htf : a.ty.typeFlags = GcPointerFlag ∨ a.ty.typeFlags = GcAggregateFlag := by
          cases hat : a.ty with
          | nonGc => rw [hat] at hgt; exact absurd hgt (by decide)
          | gcPtr => exact Or.inl rfl
          | gcAggregate ms => exact Or.inr rfl
        rcases htf with htf | htf <;>
          rw [htf] at hflags hfl ⊢ <;>
          rcases hfl with rfl | rfl <;>
          rcases hflags with hf | hf <;>
          rw [hf] <;>
          decide
      · rw [hpa] at hgt
        rw [hgt] at hty
        cases hty
    · rw [if_neg hpa] at hfp
      subst hfp
      exact hw
  · rw [if_neg hrec] at h
    by_cases hcl : g.offsetClash a = true
    · rw [if_pos hcl] at h
      cases h
    rw [if_neg hcl] at h
    simp only [Except.map, Except.ok.injEq] at h
    have hnm : ∀ p ∈ g.AllocaMap, p.1 ≠ a :=
      (hasRecord_false_iff g a).mp (by simpa using hrec)
    rw [orFlags_append g a flags ⟨a.offset, a.ty.typeFlags⟩ hnm] at h
    subst h
    intro p' hp'
    simp only at hp'
    rcases List.mem_append.mp hp' with hold | hnew
    · exact hinv p' hold
    · rw [List.mem_singleton.mp hnew]
      refine ⟨rfl, Or.inl ⟨hty, ?_⟩⟩
      rcases hfl with rfl | rfl
      · right
        rfl
      · left
        cases hat : a.ty with
        | nonGc => rw [hat] at hty; simp [AllocaTy.isGcType] at hty
        | gcPtr =>
          show AllocaTy.gcPtr.typeFlags ||| AllocaTy.gcPtr.typeFlags =
            AllocaTy.gcPtr.typeFlags
          decide
        | gcAggregate ms =>
          show (AllocaTy.gcAggregate ms).typeFlags ||| (AllocaTy.gcAggregate ms).typeFlags =
            (AllocaTy.gcAggregate ms).typeFlags
          show GcAggregateFlag ||| GcAggregateFlag = GcAggregateFlag
          decide

lemma markNonGcAlloca_wf (g : GcFuncInfo) (a : Alloca) (flags : Nat) (g' : GcFuncInfo)
    (hinv : ∀ p ∈ g.AllocaMap, WfEntry p)
    (hfl : flags = GsCookieFlag ∨ flags = SecurityObjectFlag ∨ flags = GenericsContextFlag)
    (h : g.markNonGcAlloca a flags = .ok g') :
    ∀ p ∈ g'.AllocaMap, WfEntry p := by
  have hflne : flags ≠ 0 := by rcases hfl with rfl | rfl | rfl <;> decide
  have hflsub : flags ||| specialMask = specialMask := by
    rcases hfl with rfl | rfl | rfl <;> decide
  unfold GcFuncInfo.markNonGcAlloca at h
  by_cases hty : a.ty.isGcType = true
  case pos =>
    rw [if_pos hty] at h
    cases h
  rw [if_neg hty] at h
  have htyf : a.ty.isGcType = false := by simpa using hty
  unfold GcFuncInfo.recordAlloca at h
  by_cases hrec : g.hasRecord a = true
  · rw [if_pos hrec] at h
    simp only [Except.map, Except.ok.injEq] at h
    subst h
    intro p' hp'
    unfold GcFuncInfo.orFlags at hp'
    simp only at hp'
    obtain ⟨p, hp, hfp⟩ := List.mem_map.mp hp'
    have hw := hinv p hp
    by_cases hpa : p.1 = a
    · rw [if_pos hpa] at hfp
      subst hfp
      obtain ⟨hoff, hbr⟩ := hw
      refine ⟨hoff, ?_⟩
      rcases hbr with ⟨hgt, -⟩ | ⟨hgt, hne, hsub⟩
      · rw [hpa] at hgt
        rw [hgt] at htyf
        cases htyf
      · right
        refine ⟨hgt, ?_, lor_subset_mask _ _ _ hsub hflsub⟩
        intro h0
        rcases (nat_or_eq_zero_iff _ _).mp h0 with ⟨-, hc0⟩
        exact hflne hc0
    · rw [if_neg hpa] at hfp
      subst hfp
      exact hw
  · rw [if_neg hrec] at h
    by_cases hcl : g.offsetClash a = true
    · rw [if_pos hcl] at h
      cases h
    rw [if_neg hcl] at h
    simp only [Except.map, Except.ok.injEq] at h
    have hnm : ∀ p ∈ g.AllocaMap, p.1 ≠ a :=
      (hasRecord_false_iff g a).mp (by simpa using hrec)
    rw [orFlags_append g a flags ⟨a.offset, a.ty.typeFlags⟩ hnm] at h
    subst h
    intro p' hp'
    simp only at hp'
    rcases List.mem_append.mp hp' with hold | hnew
    · exact hinv p' hold
    · rw [List.mem_singleton.mp hnew]
      refine ⟨rfl, Or.inr ⟨htyf, ?_, ?_⟩⟩
      · have htf0 : a.ty.typeFlags = 0 := by
          cases hat : a.ty with
          | nonGc => rfl
          | gcPtr => rw [hat] at htyf; cases htyf
          | gcAggregate ms => rw [hat] at htyf; cases htyf
        rw [htf0, Nat.zero_or]
        exact hflne
      · have htf0 : a.ty.typeFlags = 0 := by
          cases hat : a.ty with
          | nonGc => rfl
          | gcPtr => rw [hat] at htyf; cases htyf
          | gcAggregate ms => rw [hat] at htyf; cases htyf
        rw [htf0, Nat.zero_or]
        exact hflsub

lemma applyRecordOp_wf (g : GcFuncInfo) (op : RecordOp) (g' : GcFuncInfo)
    (hinv : ∀ p ∈ g.AllocaMap, WfEntry p)
    (h : applyRecordOp g op = .ok g') :
    ∀ p ∈ g'.AllocaMap, WfEntry p := by
  cases op with
  | gcAlloca a =>
    exact markGcAlloca_wf g a _ g' hinv (Or.inr rfl) h
  | pinned a =>
    exact markGcAlloca_wf g a _ g' hinv (Or.inl rfl) h
  | securityObject a =>
    exact markNonGcAlloca_wf g a _ g' hinv (Or.inr (Or.inl rfl)) h
  | gsCookie a rs re =>
    simp only [applyRecordOp, GcFuncInfo.recordGsCookie] at h
    cases hmk : g.markNonGcAlloca a GsCookieFlag with
    | error e => rw [hmk] at h; cases h
    | ok g1 =>
      rw [hmk] at h
      simp only [Except.map, Except.ok.injEq] at h
      have h1 := markNonGcAlloca_wf g a _ g1 hinv (Or.inl rfl) hmk
      intro p hp
      apply h1
      rw [← h] at hp
      exact hp
  | genericsContext a pt =>
    simp only [applyRecordOp, GcFuncInfo.recordGenericsContext] at h
    cases hmk : g.markNonGcAlloca a GenericsContextFlag with
    | error e => rw [hmk] at h; cases h
    | ok g1 =>
      rw [hmk] at h
      simp only [Except.map, Except.ok.injEq] at h
      have h1 := markNonGcAlloca_wf g a _ g1 hinv (Or.inr (Or.inr rfl)) hmk
      intro p hp
      apply h1
      rw [← h] at hp
      exact hp

lemma runRecordOps_wf (ops : List RecordOp) (g g' : GcFuncInfo)
    (hinv : ∀ p ∈ g.AllocaMap, WfEntry p)
    (h : runRecordOps g ops = .ok g') :
    ∀ p ∈ g'.AllocaMap, WfEntry p := by
  induction ops generalizing g with
  | nil =>
    cases h
    exact hinv
  | cons op ops ih =>
    unfold runRecordOps at h
    cases happ : applyRecordOp g op with
    | error e => rw [happ] at h; cases h
    | ok g1 =>
      rw [happ] at h
      simp only [Except.bind] at h
      exact ih g1 (applyRecordOp_wf g op g1 hinv happ) h

lemma wf_gc_flags_conclusion (f : Nat)
    (hf : f = GcPointerFlag ∨ f = GcPointerFlag ||| PinnedFlag ∨
          f = GcAggregateFlag ∨ f = GcAggregateFlag ||| PinnedFlag) :
    ¬((f &&& GcPointerFlag != 0) = true ∧ (f &&& GcAggregateFlag != 0) = true) ∧
    (f &&& GcValueFlag != 0) = true ∧ f &&& specialMask = 0 := by
  rcases hf with rfl | rfl | rfl | rfl <;> decide

lemma wf_special_flags_conclusion (f : Nat) (hne : f ≠ 0)
    (hsub : f ||| specialMask = specialMask) :
    (f &&& GcPointerFlag != 0) = false ∧
    (f &&& GcValueFlag != 0) = false ∧
    f &&& (GcValueFlag ||| PinnedFlag) = 0 := by
  have h1 : f &&& GcValueFlag = 0 :=
    and_eq_zero_of_subset f specialMask GcValueFlag hsub (by decide)
  have h2 : f &&& (GcValueFlag ||| PinnedFlag) = 0 :=
    and_eq_zero_of_subset f specialMask (GcValueFlag ||| PinnedFlag) hsub (by decide)
  have h3 : f &&& GcPointerFlag = 0 :=
    and_eq_zero_of_subset f specialMask GcPointerFlag hsub (by decide)
  refine ⟨?_, ?_, h2⟩
  · rw [h3]
    rfl
  · rw [h1]
    rfl

/-- C7: in every GcFuncInfo reachable from the empty record by any sequence
of record operations, no entry has GcPointer and GcAggregate both set, and
every entry is exactly one of a GC value (whose flags stay within the GC and
Pinned bits) or a non-GC special slot (a nonempty combination of only the
GsCookie, SecurityObject and GenericsContext bits, with no GC or Pinned
bit). -/
theorem alloca_flag_exclusion_invariant (ops : List RecordOp) (g : GcFuncInfo)
    (h : runRecordOps emptyGcFuncInfo ops = .ok g) :
    ∀ p ∈ g.AllocaMap,
      ¬(p.2.isGcPointer = true ∧ p.2.isGcAggregate = true) ∧
      ((p.2.isGcValue = true ∧ p.2.Flags &&& specialMask = 0) ∨
       (p.2.isGcValue = false ∧ p.2.Flags ≠ 0 ∧
        p.2.Flags &&& (GcValueFlag ||| PinnedFlag) = 0)) := by
  have hwf : ∀ p ∈ g.AllocaMap, WfEntry p :=
    runRecordOps_wf ops emptyGcFuncInfo g (by simp [emptyGcFuncInfo]) h
  intro p hp
  obtain ⟨-, hbr⟩ := hwf p hp
  rcases hbr with ⟨hgt, hflags⟩ | ⟨-, hne, hsub⟩
  · have h4 : p.2.Flags = GcPointerFlag ∨ p.2.Flags = GcPointerFlag ||| PinnedFlag ∨
        p.2.Flags = GcAggregateFlag ∨ p.2.Flags = GcAggregateFlag ||| PinnedFlag := by
      cases hat : p.1.ty with
      | nonGc => rw [hat] at hgt; cases hgt
      | gcPtr =>
        rw [hat] at hflags
        rcases hflags with hf | hf
        · exact Or.inl hf
        · exact Or.inr (Or.inl hf)
      | gcAggregate ms =>
        rw [hat] at hflags
        rcases hflags with hf | hf
        · exact Or.inr (Or.inr (Or.inl hf))
        · exact Or.inr (Or.inr (Or.inr hf))
    obtain ⟨hx, hv, hs⟩ := wf_gc_flags_conclusion p.2.Flags h4
    exact ⟨hx, Or.inl ⟨hv, hs⟩⟩
  · obtain ⟨hptr, hval, hand⟩ := wf_special_flags_conclusion p.2.Flags hne hsub
    refine ⟨?_, Or.inr ⟨hval, hne, hand⟩⟩
    rintro ⟨hP, -⟩
    rw [AllocaInfo.isGcPointer] at hP
    rw [hptr] at hP
    cases hP

/-! ## Witnesses: the claim theorems applied at concrete inputs -/

/-- Witness for the grouped slot-assignment theorem at the run
getTrackedSlot(-16); getUntrackedSlot(-24). -/
theorem slot_assignment_grouped_contiguous_witness :
    ∃ t0 u0,
      (runSlotCalls initEmitter
        [SlotCall.tracked (-16), SlotCall.untracked (-24) true false]).trackedIds =
          List.range' t0 [SlotCall.tracked (-16)].length ∧
      (runSlotCalls initEmitter
        [SlotCall.tracked (-16), SlotCall.untracked (-24) true false]).untrackedIds =
          List.range' u0 [SlotCall.untracked (-24) true false].length ∧
      ∀ id : Nat,
        ((runSlotCalls initEmitter
            [SlotCall.tracked (-16), SlotCall.untracked (-24) true false]).isTrackedSlot id
          = true ↔
         id ∈ (runSlotCalls initEmitter
            [SlotCall.tracked (-16), SlotCall.untracked (-24) true false]).trackedIds) :=
  slot_assignment_grouped_contiguous
    [SlotCall.tracked (-16)] [SlotCall.untracked (-24) true false]
    [SlotCall.tracked (-16), SlotCall.untracked (-24) true false]
    (by decide) (by decide) (Or.inl rfl)

/-- Witness for the pinned-slot theorem on a record holding one pinned GC
pointer at offset -16. -/
theorem pinned_slot_emitted_untracked_witness :
    (⟨(-16 : Int), true,
        AllocaInfo.isGcPointer ⟨-16, 5⟩⟩ : UntrackedEntry) ∈
      (emitSlots { AllocaMap := [(⟨1, -16, AllocaTy.gcPtr⟩, ⟨-16, 5⟩)] }).untrackedEntries ∧
    ((-16 : Int)) ∉
      (emitSlots { AllocaMap := [(⟨1, -16, AllocaTy.gcPtr⟩, ⟨-16, 5⟩)] }).trackedOffsets :=
  pinned_slot_emitted_untracked
    { AllocaMap := [(⟨1, -16, AllocaTy.gcPtr⟩, ⟨-16, 5⟩)] }
    ⟨1, -16, AllocaTy.gcPtr⟩ ⟨-16, 5⟩
    (by decide) (by decide) (by decide) (by decide)

/-- Witness for the flag-merging theorem: a fresh GC pointer at offset -16
recorded and then pinned, starting from the empty record. -/
theorem rerecord_merges_flags_witness :
    (emptyGcFuncInfo.recordGcAlloca ⟨1, -16, AllocaTy.gcPtr⟩).bind
        (fun g1 => g1.recordPinned ⟨1, -16, AllocaTy.gcPtr⟩) =
      .ok { emptyGcFuncInfo with AllocaMap :=
              emptyGcFuncInfo.AllocaMap ++
                [(⟨1, -16, AllocaTy.gcPtr⟩, ⟨-16, GcPointerFlag ||| PinnedFlag⟩)] } ∧
    ∀ g2, (emptyGcFuncInfo.recordGcAlloca ⟨1, -16, AllocaTy.gcPtr⟩).bind
        (fun g1 => g1.recordPinned ⟨1, -16, AllocaTy.gcPtr⟩) = .ok g2 →
      (g2.AllocaMap.filter (fun p => p.1 == (⟨1, -16, AllocaTy.gcPtr⟩ : Alloca))).length = 1 :=
  rerecord_merges_flags emptyGcFuncInfo ⟨1, -16, AllocaTy.gcPtr⟩
    (by decide) (by decide) rfl

/-- Witness for the duplicate-offset theorem: two distinct GC pointers both
at offset -16, starting from the empty record. -/
theorem duplicate_offset_fatal_no_output_witness :
    runRecordOps emptyGcFuncInfo
        [.gcAlloca ⟨1, -16, AllocaTy.gcPtr⟩, .gcAlloca ⟨2, -16, AllocaTy.gcPtr⟩] =
      .error .duplicateOffset ∧
    emitFromRecords 3 (runRecordOps emptyGcFuncInfo
        [.gcAlloca ⟨1, -16, AllocaTy.gcPtr⟩, .gcAlloca ⟨2, -16, AllocaTy.gcPtr⟩]) = none :=
  duplicate_offset_fatal_no_output emptyGcFuncInfo
    ⟨1, -16, AllocaTy.gcPtr⟩ ⟨2, -16, AllocaTy.gcPtr⟩ 3
    (by decide) (by decide) (by decide) (by decide) rfl rfl rfl

/-- Witness for the no-GC-content theorem on a function with no recorded
slot and no safepoint. -/
theorem non_gc_function_no_output_witness :
    isGcFunction ⟨0, emptyGcFuncInfo⟩ = false ∧
    emitGCInfo ⟨0, emptyGcFuncInfo⟩ = none :=
  non_gc_function_no_output ⟨0, emptyGcFuncInfo⟩ rfl rfl

/-- Witness for the flag-exclusion invariant: after recording a GC pointer,
pinning it and recording a stack-guard cookie, the pinned-pointer entry
(flags 0x5) satisfies the exclusion rules. -/
theorem alloca_flag_exclusion_invariant_witness :
    ¬(AllocaInfo.isGcPointer ⟨-16, 5⟩ = true ∧
      AllocaInfo.isGcAggregate ⟨-16, 5⟩ = true) ∧
    ((AllocaInfo.isGcValue ⟨-16, 5⟩ = true ∧
        (AllocaInfo.mk (-16) 5).Flags &&& specialMask = 0) ∨
     (AllocaInfo.isGcValue ⟨-16, 5⟩ = false ∧
        (AllocaInfo.mk (-16) 5).Flags ≠ 0 ∧
        (AllocaInfo.mk (-16) 5).Flags &&& (GcValueFlag ||| PinnedFlag) = 0)) :=
  alloca_flag_exclusion_invariant
    [.gcAlloca ⟨1, -16, AllocaTy.gcPtr⟩, .pinned ⟨1, -16, AllocaTy.gcPtr⟩,
     .gsCookie ⟨2, -24, AllocaTy.nonGc⟩ 4 9]
    (GcFuncInfo.mk
      [(⟨1, -16, AllocaTy.gcPtr⟩, ⟨-16, 5⟩), (⟨2, -24, AllocaTy.nonGc⟩, ⟨-24, 8⟩)]
      4 9 0)
    (by rfl)
    (⟨1, -16, AllocaTy.gcPtr⟩, ⟨-16, 5⟩) (by decide)

/-- Witness for the registry theorem: get-or-create on a present key, on an
absent key, and a run of create and query operations. -/
theorem registry_get_or_create_spec_witness :
    (GcInfo.mk [(7, emptyGcFuncInfo)]).newGcInfo 7 =
      (emptyGcFuncInfo, GcInfo.mk [(7, emptyGcFuncInfo)]) ∧
    ((GcInfo.mk []).newGcInfo 5 =
      (emptyGcFuncInfo, ⟨[] ++ [(5, emptyGcFuncInfo)]⟩) ∧
     (GcInfo.mk ([] ++ [(5, emptyGcFuncInfo)])).getGcInfo 5 = some emptyGcFuncInfo) ∧
    (runRegistryOps ⟨[]⟩
        [.create 3, .query 3, .create 3, .create 4]).countKey 3 =
      (if 3 ∈ createdFns [.create 3, .query 3, .create 3, .create 4] then 1 else 0) :=
  ⟨registry_get_or_create_spec.1 (GcInfo.mk [(7, emptyGcFuncInfo)]) 7 emptyGcFuncInfo
      (by decide),
   registry_get_or_create_spec.2.1 (GcInfo.mk []) 5 (by decide),
   registry_get_or_create_spec.2.2
     [.create 3, .query 3, .create 3, .create 4] 3⟩

/-- Witness for the escaping-locations theorem on a record with one GC
pointer and one GC aggregate and no special slot. -/
theorem escaping_locations_complete_witness :
    GcFuncInfo.getEscapingLocations
        (GcFuncInfo.mk
          [(⟨1, -16, AllocaTy.gcPtr⟩, ⟨-16, 1⟩),
           (⟨2, -24, AllocaTy.gcAggregate [0, 8]⟩, ⟨-24, 2⟩)] 0 0 0) =
      (GcFuncInfo.mk
          [(⟨1, -16, AllocaTy.gcPtr⟩, ⟨-16, 1⟩),
           (⟨2, -24, AllocaTy.gcAggregate [0, 8]⟩, ⟨-24, 2⟩)] 0 0 0).AllocaMap.map
        Prod.fst ∧
    (GcFuncInfo.getEscapingLocations
        (GcFuncInfo.mk
          [(⟨1, -16, AllocaTy.gcPtr⟩, ⟨-16, 1⟩),
           (⟨2, -24, AllocaTy.gcAggregate [0, 8]⟩, ⟨-24, 2⟩)] 0 0 0)).length =
      (GcFuncInfo.mk
          [(⟨1, -16, AllocaTy.gcPtr⟩, ⟨-16, 1⟩),
           (⟨2, -24, AllocaTy.gcAggregate [0, 8]⟩, ⟨-24, 2⟩)] 0 0 0).AllocaMap.length :=
  escaping_locations_complete
    (GcFuncInfo.mk
      [(⟨1, -16, AllocaTy.gcPtr⟩, ⟨-16, 1⟩),
       (⟨2, -24, AllocaTy.gcAggregate [0, 8]⟩, ⟨-24, 2⟩)] 0 0 0)
    (by decide)

end GcInfoSpec
